import Mathlib

/-!
Shallow embedding of `src/cansock.c` (CanSerial): the port table, the frame
codec (`CanSockSend`), the virtual-port factory (`CanVport` / `CanVportClose`),
the multiplexer iteration body (`CanRxThread` while-loop body), and the
liveness driver (`CanPing`).

Machine integers are modelled as `Nat`/`Int` with explicit `% 2^w` where the C
code truncates.  Side effects (socket writes, PTY writes, reads, unlink,
inotify calls) are recorded as an explicit `Effect` trace.  Environmental
outcomes (whether `openpty`, `symlink`, ... succeed, what bytes a `read`
returns) are passed in as parameters, mirroring the syscall results the C code
branches on.
-/

/-- Modelled from the spec: constants of the missing header `cansock.h`
(only `cansock.c` is in the repository snapshot).  The spec fixes
`CAN_UUID_SIZE = 6` (6-byte UUIDs) and the CAN payload bound 8; the packet-id
values are "policy of the deployment", so representative distinct values are
used.  `PINGS_BEFORE_DISCONNECT` is a positive liveness budget; the spec fixes
no numeric value, 5 is used as a representative. -/
def CAN_UUID_SIZE : Nat := 6

/-- Modelled from the spec: CAN payload size bound (8 data bytes). -/
def CAN_DATA_SIZE : Nat := 8

/-- Modelled from the spec: base of the per-port control-channel id range. -/
def PKT_ID_CTL_FILTER : Nat := 0x200

/-- Modelled from the spec: outbound discovery solicit id. -/
def PKT_ID_UUID : Nat := 0x1F0

/-- Modelled from the spec: inbound discovery response id. -/
def PKT_ID_UUID_RESP : Nat := 0x1F1

/-- Modelled from the spec: outbound id-assignment acknowledgement id. -/
def PKT_ID_SET : Nat := 0x1F2

/-- Modelled from the spec: the per-port liveness budget (`ping_credit` is in
`[0, PINGS_BEFORE_DISCONNECT]`). -/
def PINGS_BEFORE_DISCONNECT : Int := 5

/-- Linux errno EINVAL, returned by `CanSockSend` on an oversized payload. -/
def EINVAL : Nat := 22

/-- Linux errno EIO, returned by `CanSockSend` on a short socket write. -/
def EIOCode : Nat := 5

/-- 2^32, the modulus of `canid_t` (a `uint32_t`). -/
def U32 : Nat := 2 ^ 32

/-- 2^16, the modulus of `uint16_t`. -/
def U16 : Nat := 2 ^ 16

/-- 2^8, the modulus of `uint8_t`. -/
def U8 : Nat := 2 ^ 8

/-- `frame.can_id - 1` in C: subtraction on `canid_t` (`uint32_t`), wrapping. -/
def canSub1 (x : Nat) : Nat := (x % U32 + (U32 - 1)) % U32

/-- The low two bytes of a value, little-endian, as written by the C code when
it passes `(uint8_t*)&v` with length 2 on a little-endian host. -/
def le16 (x : Nat) : List Nat := [x % 256, x / 256 % 256]

/-- `tPortId` from `cansock.c`: one port-table entry.
`port` is `uint16_t`, `canid` is `canid_t` (`uint32_t`), `can_uuid` is
`uint8_t[CAN_UUID_SIZE]`, `pingcount` is a C `int`, `active` is an `int` used
as a flag, `watch` is the inotify watch descriptor. -/
structure tPortId where
  port : Nat
  canid : Nat
  can_uuid : List Nat
  pingcount : Int
  active : Bool
  watch : Int
  deriving Repr, DecidableEq, Inhabited

/-- One entry of the `struct pollfd` vector (the `revents` field is an output
of each `poll` call and is supplied per-iteration as an input instead). -/
structure PollFd where
  fd : Int
  events : Nat
  deriving Repr, DecidableEq, Inhabited

/-- `POLLIN`. -/
def POLLIN : Nat := 1

/-- `tPorts` from `cansock.c`.  `p` and `VportFd` are the two parallel arrays;
index 0 of `p` is the unused sentinel and index 0 of `VportFd` is the CAN
socket.  The live length of both arrays is `ports.portptr`; the model keeps
exactly the live prefix as a list, so `portptr = p.length`.  `portsize` is the
allocated capacity. -/
structure tPorts where
  p : List tPortId
  VportFd : List PollFd
  portsize : Nat
  deriving Repr, DecidableEq, Inhabited

/-- `ports.portptr`: the number of live slots (slot 0 included). -/
def portptr (s : tPorts) : Nat := s.p.length

/-- The real ports: slots `1 .. portptr-1` (slot 0 is the sentinel). -/
def realPorts (s : tPorts) : List tPortId := s.p.tail

/-- The global mutable state the mutex protects: the port table and the ping
cursor `pingptr`. -/
structure GState where
  ports : tPorts
  pingptr : Nat
  deriving Repr, DecidableEq, Inhabited

/-- Observable side effects of the C code, in program order. -/
inductive Effect where
  | sockWrite (canid : Nat) (dlc : Nat) (data : List Nat)
  | ptyWrite (slot : Nat) (data : List Nat)
  | readCan
  | readPty (slot : Nat)
  | readInotify
  | rmWatch (watch : Int)
  | unlinkPath (path : String)
  | closeFd (fd : Int)
  | openPty
  | addWatch (path : String)
  deriving Repr, DecidableEq

/-- `CanSockSend(canid_t id, uint8_t len, uint8_t* data)`.
`data = none` models a NULL pointer.  `writeOk` is the environmental outcome
of `write(sock, &frame, sizeof(frame))` returning the full size.  Returns the
C return value and the attempted socket writes.  The function reads `data`
only under `len != 0` (the C `if (len) memcpy(...)`). -/
def CanSockSend (id : Nat) (len : Nat) (data : Option (List Nat))
    (writeOk : Bool) : Nat × List Effect :=
  let len8 := len % U8
  if 8 < len8 then (EINVAL, [])
  else
    let payload := if len8 ≠ 0 then (data.getD []).take len8 else []
    let eff := [Effect.sockWrite (id % U32) len8 payload]
    (if writeOk then 0 else EIOCode, eff)

/-- The socket-write trace of a `CanSockSend` call.  The trace does not depend
on whether the write succeeds (the C code attempts the write either way and
all internal callers ignore the return value). -/
def sendEffects (id : Nat) (len : Nat) (data : Option (List Nat)) :
    List Effect :=
  (CanSockSend id len data true).2

/-- `CanSockSend` threaded through the global state: the C function reads only
the socket descriptor, never the port table, so the state passes unchanged. -/
def CanSockSendG (g : GState) (id : Nat) (len : Nat)
    (data : Option (List Nat)) (writeOk : Bool) :
    Nat × List Effect × GState :=
  (CanSockSend id len data writeOk |>.1, CanSockSend id len data writeOk |>.2, g)

/-- `%02x` of one byte, lowercase. -/
def hexByte (b : Nat) : String :=
  let s := String.mk (Nat.toDigits 16 (b % 256))
  if b % 256 < 16 then "0" ++ s else s

/-- `CanTtyName`: `/tmp/ttyCAN0_` followed by the 12 hex digits of the six
UUID bytes. -/
def CanTtyName (p : tPortId) : String :=
  "/tmp/ttyCAN0_" ++
    String.join ((List.range CAN_UUID_SIZE).map fun k =>
      hexByte (p.can_uuid.getD k 0))

/-- `CanVportClose`: removes the inotify watch and unlinks the symlink.  The
C function performs exactly these two calls (plus a `perror` log on a failed
unlink); it does not close either end of the PTY pair. -/
def CanVportClose (p : tPortId) : List Effect :=
  [Effect.rmWatch p.watch, Effect.unlinkPath (CanTtyName p)]

/-- `tCanFrame`: `can_id` is `canid_t` (a value below 2^32 as read from the
kernel), `can_dlc` is `uint8_t`, `data` is the 8-byte payload buffer. -/
structure tCanFrame where
  can_id : Nat
  can_dlc : Nat
  data : List Nat
  deriving Repr, DecidableEq, Inhabited

/-- Environmental outcomes of the syscalls `CanVport` performs: whether
`openpty`, `fcntl(F_GETFL)`, `symlink` and `chmod` succeed, the master
descriptor and slave path they yield, and the watch descriptor
`inotify_add_watch` returns. -/
structure VportEnv where
  openptyOk : Bool
  fcntlOk : Bool
  symlinkOk : Bool
  chmodOk : Bool
  masterFd : Int
  ttyName : String
  watchFd : Int

/-- The `for(i=1; i<ports.portptr; i++)` scan of `CanVport`, first slot whose
`port` equals `portid` (the comparison promotes both to `int`, so `portid` is
compared untruncated). -/
def findPortAux (l : List tPortId) (portid : Nat) (i : Nat) : Option Nat :=
  match l with
  | [] => none
  | x :: xs => if x.port = portid then some i else findPortAux xs portid (i + 1)

/-- First real slot (index ≥ 1) whose `port` field equals `portid`. -/
def findPort (s : tPorts) (portid : Nat) : Option Nat :=
  findPortAux s.p.tail portid 1

/-- `CanVport(int portid, uint8_t *uuid)`.  Returns the slot index, or -1 on a
failed `openpty` / `fcntl` / `symlink` / `chmod`.  Notes kept from the C code:
the existence scan runs first and returns the old slot untouched; the capacity
doubles when full (the `realloc`; an allocation failure calls `exit(1)` and is
not modelled); the entry fields are filled into the scratch slot `p[portptr]`
before the fallible syscalls, so on failure the live table is unchanged
(`portptr` is not incremented); `p->port` is a `uint16_t` and truncates
`portid`; `p->canid = 2*portid + PKT_ID_CTL_FILTER` is a `canid_t`.
The entry filled in is `vportEntry` below: `p->port` (a `uint16_t`),
`p->canid` (a `canid_t`), the copied UUID bytes, the initial ping credit,
`active = 0`, and the watch descriptor `inotify_add_watch` returns. -/
def vportEntry (env : VportEnv) (portid : Nat) (uuid : List Nat) : tPortId :=
  { port := portid % U16
    canid := (2 * portid + PKT_ID_CTL_FILTER) % U32
    can_uuid := (List.range CAN_UUID_SIZE).map fun k => uuid.getD k 0 % U8
    pingcount := PINGS_BEFORE_DISCONNECT
    active := false
    watch := env.watchFd }

def CanVport (env : VportEnv) (s : tPorts) (portid : Nat) (uuid : List Nat) :
    Int × tPorts × List Effect :=
  match findPort s portid with
  | some i => (Int.ofNat i, s, [])
  | none =>
    let s1 := if portptr s = s.portsize
              then { s with portsize := s.portsize * 2 } else s
    let entry : tPortId := vportEntry env portid uuid
    if !env.openptyOk then (-1, s1, []) else
    if !env.fcntlOk then (-1, s1, [Effect.openPty]) else
    let fname := CanTtyName entry
    if !env.symlinkOk then (-1, s1, [Effect.openPty, Effect.unlinkPath fname])
    else
    if !env.chmodOk then (-1, s1, [Effect.openPty, Effect.unlinkPath fname])
    else
    let s2 := { s1 with
      p := s1.p ++ [entry]
      VportFd := s1.VportFd ++ [{ fd := env.masterFd, events := POLLIN }] }
    (Int.ofNat (portptr s2 - 1), s2,
      [Effect.openPty, Effect.unlinkPath fname, Effect.addWatch fname])

/-- `ConfigurePort(tCanFrame frame)`.  `pn` is the external helper
`PnGetNumber` from the missing `portnumber.h` (modelled from the spec as an
arbitrary pure function of the UUID bytes).  The packed `resp` is the 2-byte
little-endian `canid` (a `uint16_t`) followed by the 6 UUID bytes; its size is
8.  The return value of `CanVport` is ignored and the function always returns
0 after sending the SET frame. -/
def ConfigurePort (pn : List Nat → Nat) (env : VportEnv) (s : tPorts)
    (frame : tCanFrame) : Int × tPorts × List Effect :=
  let portid := pn frame.data
  let respCanid := (2 * portid + PKT_ID_CTL_FILTER) % U16
  let u := (List.range CAN_UUID_SIZE).map fun k => frame.data.getD k 0
  let r := CanVport env s portid u
  (0, r.2.1, r.2.2 ++ sendEffects PKT_ID_SET 8 (some (le16 respCanid ++ u)))

/-- The `for(i=1; ...)` scan of the dispatch branch: first slot whose `canid`
equals the target. -/
def findCtlAux (l : List tPortId) (target : Nat) (i : Nat) : Option Nat :=
  match l with
  | [] => none
  | x :: xs => if x.canid = target then some i else findCtlAux xs target (i + 1)

/-- First real slot (index ≥ 1) with `p[i].canid = target`. -/
def findCtl (s : tPorts) (target : Nat) : Option Nat :=
  findCtlAux s.p.tail target 1

/-- The non-discovery arm of the CAN branch (`cansock.c` lines 212-229): scan
for the slot with `canid == frame.can_id - 1`; if found, write the payload to
its PTY master when `can_dlc > 0 && active`, and always reset `pingcount`; if
no slot matches, solicit a UUID from `frame.can_id - 1` (two bytes of the
`uint16_t txaddr`). -/
def dispatchFrame (s : tPorts) (frame : tCanFrame) : tPorts × List Effect :=
  match findCtl s (canSub1 frame.can_id) with
  | some i =>
    let old := s.p.getD i default
    let eff := if 0 < frame.can_dlc ∧ old.active
               then [Effect.ptyWrite i (frame.data.take frame.can_dlc)]
               else []
    ({ s with p := s.p.set i { old with pingcount := PINGS_BEFORE_DISCONNECT } },
     eff)
  | none =>
    let txaddr := canSub1 frame.can_id % U16
    (s, sendEffects PKT_ID_UUID 2 (some (le16 txaddr)))

/-- The CAN-socket branch of one loop iteration (`VportFd[0].revents` set):
read one frame (`canReadOk` is `read(...) >= 0`); a `PKT_ID_UUID_RESP` frame
goes to `ConfigurePort`, whose negative return would `break` (the abort flag);
any other frame is dispatched.  Returns the new table, the effect trace and
the abort flag. -/
def canService (pn : List Nat → Nat) (env : VportEnv) (s : tPorts)
    (canReadOk : Bool) (frame : tCanFrame) : tPorts × List Effect × Bool :=
  if !canReadOk then (s, [Effect.readCan], false)
  else if frame.can_id = PKT_ID_UUID_RESP then
    let r := ConfigurePort pn env s frame
    (r.2.1, Effect.readCan :: r.2.2, decide (r.1 < 0))
  else
    let r := dispatchFrame s frame
    (r.1, Effect.readCan :: r.2, false)

/-- Service of one readable PTY master (slot `i`): read up to
`CAN_DATA_SIZE` bytes (`bytes` is what the `read` returned; `[]` models
`rl <= 0`); every `0x7E` byte sets `active`; the chunk is forwarded to the
slot's `canid`. -/
def ptyServiceSlot (s : tPorts) (i : Nat) (bytes : List Nat) :
    tPorts × List Effect :=
  let bytes := bytes.take CAN_DATA_SIZE
  if bytes.length = 0 then (s, [Effect.readPty i])
  else
    let old := s.p.getD i default
    let act := old.active || bytes.any fun b => b = 0x7E
    ({ s with p := s.p.set i { old with active := act } },
     [Effect.readPty i] ++ sendEffects old.canid bytes.length (some bytes))

/-- One step of the PTY scan loop: skip slot 0 and slots whose `revents` is
clear, service the rest. -/
def ptyStep (revents : List Bool) (ptyData : Nat → List Nat)
    (acc : tPorts × List Effect) (i : Nat) : tPorts × List Effect :=
  if i = 0 then acc
  else if revents.getD i false then
    let r := ptyServiceSlot acc.1 i (ptyData i)
    (r.1, acc.2 ++ r.2)
  else acc

/-- The PTY arm of one loop iteration: for each real slot with `revents` set,
service it.  (`revents.getD i false` is whether `VportFd[i].revents` was
nonzero; `ptyData i` is what its `read` returned.) -/
def ptyService (s : tPorts) (revents : List Bool) (ptyData : Nat → List Nat) :
    tPorts × List Effect :=
  (List.range (portptr s)).foldl (ptyStep revents ptyData) (s, [])

/-- One parsed inotify event: the watch descriptor and the `IN_OPEN` /
`IN_CLOSE` bits of its mask. -/
structure InotifyEvent where
  wd : Int
  isOpen : Bool
  isClose : Bool
  deriving Repr, DecidableEq

/-- First real slot whose `watch` equals the event's descriptor. -/
def findWatchAux (l : List tPortId) (wd : Int) (i : Nat) : Option Nat :=
  match l with
  | [] => none
  | x :: xs => if x.watch = wd then some i else findWatchAux xs wd (i + 1)

/-- `findWatch`: scan used by the inotify drain. -/
def findWatch (s : tPorts) (wd : Int) : Option Nat :=
  findWatchAux s.p.tail wd 1

/-- Processing of one inotify event: on `IN_OPEN` set `active` and solicit a
UUID re-announce with the low two bytes of the slot's `canid`; on `IN_CLOSE`
clear `active`. -/
def inotifyEventService (s : tPorts) (e : InotifyEvent) :
    tPorts × List Effect :=
  match findWatch s e.wd with
  | none => (s, [])
  | some i =>
    let old := s.p.getD i default
    if e.isOpen then
      ({ s with p := s.p.set i { old with active := true } },
       sendEffects PKT_ID_UUID 2 (some (le16 old.canid)))
    else if e.isClose then
      ({ s with p := s.p.set i { old with active := false } }, [])
    else (s, [])

/-- One step of the inotify event loop. -/
def inotifyStep (acc : tPorts × List Effect) (e : InotifyEvent) :
    tPorts × List Effect :=
  let r := inotifyEventService acc.1 e
  (r.1, acc.2 ++ r.2)

/-- The inotify drain at the bottom of every iteration: the nonblocking
`read(Inotify, ...)` always happens; `events` is what it parsed (empty when
`ev <= 0`). -/
def inotifyService (s : tPorts) (events : List InotifyEvent) :
    tPorts × List Effect :=
  events.foldl inotifyStep (s, [Effect.readInotify])

/-- The per-iteration inputs of the multiplexer loop: the `poll` return value,
the `revents` flags of each descriptor, the outcome of the CAN read, the frame
it produced, the bytes each PTY read produced, and the parsed inotify
events. -/
structure RxInput where
  pollRet : Int
  revents : List Bool
  canReadOk : Bool
  frame : tCanFrame
  ptyData : Nat → List Nat
  inotifyEvents : List InotifyEvent

/-- One full iteration of the `while (threadexit==0)` body of `CanRxThread`:
if `poll` returned positive, service the CAN socket when `VportFd[0].revents`
is set, otherwise service the readable PTY masters; then (unless the abort
`break` fired, which skips it) drain the inotify descriptor.  Returns the new
table, the ordered effect trace, and the abort flag. -/
def rxService (pn : List Nat → Nat) (env : VportEnv) (s : tPorts)
    (inp : RxInput) : tPorts × List Effect × Bool :=
  if 0 < inp.pollRet then
    if inp.revents.getD 0 false then
      canService pn env s inp.canReadOk inp.frame
    else
      let r := ptyService s inp.revents inp.ptyData
      (r.1, r.2, false)
  else (s, [], false)

/-- One full iteration (continued): the `if (ret>0)` block (`rxService`)
followed, unless the abort `break` fired, by the inotify drain. -/
def rxIteration (pn : List Nat → Nat) (env : VportEnv) (s : tPorts)
    (inp : RxInput) : tPorts × List Effect × Bool :=
  let step1 := rxService pn env s inp
  if step1.2.2 then step1
  else
    let r := inotifyService step1.1 inp.inotifyEvents
    (r.1, step1.2.1 ++ r.2, false)

/-- The stale-index erase loop of `CanPing` (`cansock.c` lines 295-298),
verbatim: `for(int i = pingptr; i < portptr-1; i++)` copies
`p[pingptr+1]` into `p[pingptr]` (the indices do not follow `i`), on both
parallel arrays; then `portptr--` drops the last live element. -/
def reapShift (s : tPorts) (cursor : Nat) : tPorts :=
  let n := portptr s
  let st := (List.range (n - 1 - cursor)).foldl
    (fun (st : tPorts) _ =>
      { st with
        p := st.p.set cursor (st.p.getD (cursor + 1) default)
        VportFd := st.VportFd.set cursor (st.VportFd.getD (cursor + 1) default) })
    s
  { st with p := st.p.take (n - 1), VportFd := st.VportFd.take (n - 1) }

/-- `CanPing(void)`: on cursor 0 broadcast a UUID solicit and advance; when
the cursor has passed the last slot, wrap it to 0; otherwise reap the slot at
the cursor if its `pingcount` is 0 (without advancing the cursor), else
decrement its `pingcount`, ping it when the decremented count is below 2, and
advance the cursor. -/
def CanPing (g : GState) : GState × List Effect :=
  if g.pingptr = 0 then
    ({ g with pingptr := g.pingptr + 1 }, sendEffects PKT_ID_UUID 0 none)
  else if portptr g.ports ≤ g.pingptr then
    ({ g with pingptr := 0 }, [])
  else
    let cur := g.ports.p.getD g.pingptr default
    if cur.pingcount = 0 then
      ({ g with ports := reapShift g.ports g.pingptr }, CanVportClose cur)
    else
      let cur2 := { cur with pingcount := cur.pingcount - 1 }
      ({ g with
          ports := { g.ports with p := g.ports.p.set g.pingptr cur2 }
          pingptr := g.pingptr + 1 },
       if cur2.pingcount < 2 then sendEffects cur2.canid 0 none else [])

/-- The port table as `CanSockInit` leaves it: capacity 8, one live slot (the
CAN socket sentinel at index 0; its `tPortId` is never written by the C code,
modelled as `default`), `pingptr = 0`. -/
def initPorts : tPorts :=
  { p := [default]
    VportFd := [{ fd := 3, events := POLLIN }]
    portsize := 8 }

/-- The initial global state after `CanSockInit`. -/
def initState : GState := { ports := initPorts, pingptr := 0 }

/-- The state-changing operations callers and the worker can perform: one
multiplexer iteration (with its environmental inputs) or one `CanPing` call.
(`CanSockSend` by an external caller never touches the state.) -/
inductive Op where
  | rx (pn : List Nat → Nat) (env : VportEnv) (inp : RxInput)
  | ping

/-- Apply one operation to the global state. -/
def applyOp (g : GState) : Op → GState
  | Op.rx pn env inp =>
      { g with ports := (rxIteration pn env g.ports inp).1 }
  | Op.ping => (CanPing g).1

/-- Run a sequence of operations from a state. -/
def runOps (g : GState) (ops : List Op) : GState := ops.foldl applyOp g

/-- Reachability of a global state from the post-init state by multiplexer
iterations and `CanPing` calls. -/
inductive Reachable : GState → Prop
  | init : Reachable initState
  | rx {g} (pn : List Nat → Nat) (env : VportEnv) (inp : RxInput) :
      Reachable g → Reachable (applyOp g (Op.rx pn env inp))
  | ping {g} : Reachable g → Reachable (applyOp g Op.ping)

/-- The spec's invariant 2 restricted to port numbers: all real slots carry
pairwise distinct `port` fields. -/
def portNumsDistinct (s : tPorts) : Prop :=
  (realPorts s).Pairwise fun a b => a.port ≠ b.port

instance (s : tPorts) : Decidable (portNumsDistinct s) := by
  unfold portNumsDistinct
  exact List.instDecidablePairwise _

/-- Effects that model a `read` syscall (CAN socket, PTY master, inotify). -/
def isReadEffect : Effect → Bool
  | Effect.readCan => true
  | Effect.readPty _ => true
  | Effect.readInotify => true
  | _ => false

/-- Concrete port entries used as witness and counterexample inputs. -/
def entA : tPortId :=
  { port := 1, canid := 0x202, can_uuid := [1, 0, 0, 0, 0, 0],
    pingcount := 0, active := false, watch := 11 }

/-- Second concrete entry (port 2, attached, credit 3). -/
def entB : tPortId :=
  { port := 2, canid := 0x204, can_uuid := [2, 0, 0, 0, 0, 0],
    pingcount := 3, active := true, watch := 12 }

/-- Third concrete entry (port 3, detached, credit 4). -/
def entC : tPortId :=
  { port := 3, canid := 0x206, can_uuid := [3, 0, 0, 0, 0, 0],
    pingcount := 4, active := false, watch := 13 }

/-- A table with three real slots whose first real slot has exhausted its
ping credit, with the reap cursor on it. -/
def c1g : GState :=
  { ports :=
      { p := [default, entA, entB, entC]
        VportFd :=
          [{ fd := 3, events := 1 }, { fd := 10, events := 1 },
           { fd := 11, events := 1 }, { fd := 12, events := 1 }]
        portsize := 8 }
    pingptr := 1 }

/-- A table with one real slot, `canid = 0x202`, attached, credit 2. -/
def c2s : tPorts :=
  { p := [default, { entA with pingcount := 2, active := true }]
    VportFd := [{ fd := 3, events := 1 }, { fd := 10, events := 1 }]
    portsize := 8 }

/-- A frame on CAN id `0x203` with a 1-byte payload. -/
def c2f : tCanFrame :=
  { can_id := 0x203, can_dlc := 1, data := [0x41, 0, 0, 0, 0, 0, 0, 0] }

/-- Modelled from the spec: a concrete choice of the external `PnGetNumber`
(a deterministic pure function of the UUID bytes) — the first UUID byte. -/
def pn0 : List Nat → Nat := fun d => d.getD 0 0

/-- An all-succeeding syscall environment with distinct descriptors per k. -/
def envK (k : Nat) : VportEnv :=
  { openptyOk := true, fcntlOk := true, symlinkOk := true, chmodOk := true,
    masterFd := 10 + k, ttyName := "", watchFd := 100 + k }

/-- Iteration input: a discovery response for the UUID starting with byte k. -/
def discInp (k : Nat) : RxInput :=
  { pollRet := 1, revents := [true], canReadOk := true
    frame := { can_id := PKT_ID_UUID_RESP, can_dlc := 8,
               data := [k, 0, 0, 0, 0, 0, 0, 0] }
    ptyData := fun _ => [], inotifyEvents := [] }

/-- Iteration input: a keep-alive frame from the remote of port k (the code
matches it against the slot with `canid = 2k + PKT_ID_CTL_FILTER`). -/
def kaInp (k : Nat) : RxInput :=
  { pollRet := 1, revents := [true], canReadOk := true
    frame := { can_id := 2 * k + PKT_ID_CTL_FILTER + 1, can_dlc := 0,
               data := [0, 0, 0, 0, 0, 0, 0, 0] }
    ptyData := fun _ => [], inotifyEvents := [] }

/-- One keep-alive cycle: a full `CanPing` sweep of three ports (broadcast,
three decrements, cursor wrap) followed by keep-alive frames that refresh
ports 2 and 3 but let port 1 starve. -/
def cycleOps : List Op :=
  [Op.ping, Op.ping, Op.ping, Op.ping, Op.ping,
   Op.rx pn0 (envK 2) (kaInp 2), Op.rx pn0 (envK 3) (kaInp 3)]

/-- A reachable run: discover ports 1, 2, 3, starve port 1 through five
keep-alive cycles, then let the liveness driver reap it (broadcast step plus
the reap step). -/
def c7Ops : List Op :=
  [Op.rx pn0 (envK 1) (discInp 1), Op.rx pn0 (envK 2) (discInp 2),
   Op.rx pn0 (envK 3) (discInp 3)]
  ++ cycleOps ++ cycleOps ++ cycleOps ++ cycleOps ++ cycleOps
  ++ [Op.ping, Op.ping]

/-- The c1 table with the cursor on the (live) slot 2 instead. -/
def w8g : GState := { c1g with pingptr := 2 }

/-- A table with one real attached slot (`canid = 0x204`). -/
def c6s : tPorts :=
  { p := [default, entB]
    VportFd := [{ fd := 3, events := 1 }, { fd := 10, events := 1 }]
    portsize := 8 }

/-- Iteration input in which both the CAN socket and the PTY master of slot 1
are readable, and the PTY has one byte pending. -/
def c6inp : RxInput :=
  { pollRet := 1, revents := [true, true], canReadOk := true
    frame := { can_id := 0x205, can_dlc := 1, data := [1, 0, 0, 0, 0, 0, 0, 0] }
    ptyData := fun _ => [65], inotifyEvents := [] }

/-- Iteration input in which only the PTY master of slot 1 is readable. -/
def c6inpPty : RxInput :=
  { pollRet := 1, revents := [false, true], canReadOk := true
    frame := { can_id := 0x205, can_dlc := 1, data := [1, 0, 0, 0, 0, 0, 0, 0] }
    ptyData := fun _ => [65], inotifyEvents := [] }

lemma sendEffects_eq (id len : Nat) (data : Option (List Nat))
    (h : len % U8 ≤ 8) :
    sendEffects id len data =
      [Effect.sockWrite (id % U32) (len % U8)
        (if len % U8 ≠ 0 then (data.getD []).take (len % U8) else [])] := by
  unfold sendEffects CanSockSend
  rw [if_neg (by omega)]

lemma mem_sendEffects {e : Effect} (id len : Nat) (data : Option (List Nat))
    (h : e ∈ sendEffects id len data) :
    ∃ a b c, e = Effect.sockWrite a b c := by
  unfold sendEffects CanSockSend at h
  by_cases hl : 8 < len % U8
  · simp [hl] at h
  · simp [hl] at h
    exact ⟨_, _, _, h⟩

lemma isReadEffect_sendEffects {e : Effect} (id len : Nat)
    (data : Option (List Nat)) (h : e ∈ sendEffects id len data) :
    isReadEffect e = false := by
  rcases mem_sendEffects id len data h with ⟨a, b, c, rfl⟩
  rfl

lemma findCtlAux_spec :
    ∀ (l : List tPortId) (t k i : Nat), findCtlAux l t k = some i →
      k ≤ i ∧ i - k < l.length ∧ (l.getD (i - k) default).canid = t := by
  intro l
  induction l with
  | nil => intro t k i h; simp [findCtlAux] at h
  | cons x xs ih =>
    intro t k i h
    unfold findCtlAux at h
    split at h
    · rename_i hx
      cases h
      refine ⟨le_refl _, by simp, ?_⟩
      simpa using hx
    · rcases ih t (k + 1) i h with ⟨h1, h2, h3⟩
      refine ⟨by omega, by simp; omega, ?_⟩
      have hik : i - k = (i - (k + 1)) + 1 := by omega
      rw [hik, List.getD_cons_succ]
      exact h3

lemma getD_tail_of_pos (l : List tPortId) (i : Nat) (hi : 1 ≤ i) :
    l.getD i default = l.tail.getD (i - 1) default := by
  rcases l with _ | ⟨hd, tl⟩
  · simp [List.getD]
  · have hik : i = (i - 1) + 1 := by omega
    rw [hik]
    simp [List.getD_cons_succ]

lemma findCtl_spec (s : tPorts) (t i : Nat) (h : findCtl s t = some i) :
    1 ≤ i ∧ i < portptr s ∧ (s.p.getD i default).canid = t := by
  unfold findCtl at h
  rcases findCtlAux_spec _ t 1 i h with ⟨h1, h2, h3⟩
  have hlen : s.p.tail.length = s.p.length - 1 := List.length_tail _
  refine ⟨h1, ?_, ?_⟩
  · unfold portptr
    omega
  · rw [getD_tail_of_pos s.p i h1]
    exact h3

lemma findPortAux_none :
    ∀ (l : List tPortId) (t k : Nat), findPortAux l t k = none →
      ∀ x ∈ l, x.port ≠ t := by
  intro l
  induction l with
  | nil => intro t k _ x hx; simp at hx
  | cons y ys ih =>
    intro t k h x hx
    unfold findPortAux at h
    split at h
    · simp at h
    · rename_i hy
      rcases List.mem_cons.mp hx with rfl | hx2
      · exact hy
      · exact ih t (k + 1) h x hx2

/-- C4: `CanVportClose` removes the inotify watch and unlinks the symlink but
never closes a file descriptor: neither PTY end is closed (the C code's own
`ToDo` comment acknowledges the missing close).  This refutes the part of the
claim that says both PTY ends are closed. -/
theorem c4_close_leaves_fds_open (e : tPortId) :
    Effect.rmWatch e.watch ∈ CanVportClose e ∧
    Effect.unlinkPath (CanTtyName e) ∈ CanVportClose e ∧
    ∀ fd, Effect.closeFd fd ∉ CanVportClose e := by
  refine ⟨by simp [CanVportClose], by simp [CanVportClose], ?_⟩
  intro fd
  simp [CanVportClose]

/-- C5: `CanSockSend` returns `EINVAL` on a payload longer than 8 without
attempting the socket write, returns `EIO` when the underlying write is short,
and never mutates the port table (the state passes through unchanged in every
case, error or not). -/
theorem c5_send_error_paths (g : GState) (id len : Nat)
    (data : Option (List Nat)) (wOk : Bool) :
    (8 < len % U8 → CanSockSendG g id len data wOk = (EINVAL, [], g)) ∧
    (len % U8 ≤ 8 → wOk = false →
      (CanSockSendG g id len data wOk).1 = EIOCode) ∧
    (CanSockSendG g id len data wOk).2.2 = g := by
  unfold CanSockSendG CanSockSend
  refine ⟨?_, ?_, ?_⟩
  · intro h
    rw [if_pos h]
  · intro h hw
    rw [if_neg (by omega), hw]
    simp
  · rfl

/-- Witness for C5: at `len = 9` the call returns `EINVAL` with no write, and
at `len = 0` with a failing write it returns `EIO`. -/
theorem c5_send_error_paths_witness :
    CanSockSendG initState 5 9 none true = (EINVAL, [], initState) ∧
    (CanSockSendG initState 5 0 none false).1 = EIOCode :=
  ⟨(c5_send_error_paths initState 5 9 none true).1 (by decide),
   (c5_send_error_paths initState 5 0 none false).2.1 (by decide) rfl⟩

/-- C10: with `len = 0`, `CanSockSend` is oblivious to the `data` pointer (a
NULL pointer, `none`, gives the same outcome as any buffer) and the frame it
writes has `dlc = 0` and an empty payload. -/
theorem c10_send_len0_ignores_data (id : Nat) (data : Option (List Nat))
    (wOk : Bool) :
    CanSockSend id 0 data wOk = CanSockSend id 0 none wOk ∧
    (CanSockSend id 0 data wOk).2 = [Effect.sockWrite (id % U32) 0 []] :=
  ⟨rfl, rfl⟩

/-- C3: when a non-discovery frame matches a slot (the scan of the dispatch
branch finds `i`), the payload is written to that slot's PTY master iff
`can_dlc > 0` and the slot is attached, and the slot's `pingcount` is reset to
`PINGS_BEFORE_DISCONNECT` in every matching case (the table update performs
the reset whether or not the payload was written). -/
theorem c3_payload_iff_and_credit_reset (s : tPorts) (frame : tCanFrame)
    (i : Nat) (h : findCtl s (canSub1 frame.can_id) = some i) :
    (Effect.ptyWrite i (frame.data.take frame.can_dlc) ∈
        (dispatchFrame s frame).2 ↔
      0 < frame.can_dlc ∧ (s.p.getD i default).active) ∧
    (dispatchFrame s frame).1.p =
      s.p.set i
        { s.p.getD i default with pingcount := PINGS_BEFORE_DISCONNECT } := by
  have hd1 : (dispatchFrame s frame).1.p =
      s.p.set i
        { s.p.getD i default with pingcount := PINGS_BEFORE_DISCONNECT } := by
    unfold dispatchFrame
    rw [h]
  have hd2 : (dispatchFrame s frame).2 =
      if 0 < frame.can_dlc ∧ (s.p.getD i default).active then
        [Effect.ptyWrite i (frame.data.take frame.can_dlc)]
      else [] := by
    unfold dispatchFrame
    rw [h]
  refine ⟨?_, hd1⟩
  rw [hd2]
  by_cases hc : 0 < frame.can_dlc ∧ (s.p.getD i default).active
  · rw [if_pos hc]
    simpa using hc
  · rw [if_neg hc]
    simpa using hc

/-- Witness for C3 at a concrete matching state: the frame with id `0x203`
matches the slot with `canid = 0x202`; its 1-byte payload is delivered and the
credit is reset. -/
theorem c3_payload_iff_and_credit_reset_witness :
    (Effect.ptyWrite 1 (c2f.data.take c2f.can_dlc) ∈ (dispatchFrame c2s c2f).2 ↔
      0 < c2f.can_dlc ∧ (c2s.p.getD 1 default).active) ∧
    (dispatchFrame c2s c2f).1.p =
      c2s.p.set 1
        { c2s.p.getD 1 default with pingcount := PINGS_BEFORE_DISCONNECT } :=
  c3_payload_iff_and_credit_reset c2s c2f 1 (by decide)

/-- C2 counterexample: the claim's matching rule is `p[i].can_id ==
frame.can_id + 1`, but the code dispatches on `p[i].canid == frame.can_id - 1`:
the slot with `canid = 0x202` receives the payload and a credit reset for the
frame with id `0x203`, although `0x202 ≠ 0x203 + 1`. -/
theorem c2_match_direction_counterexample :
    ((dispatchFrame c2s c2f).1.p.getD 1 default).pingcount =
        PINGS_BEFORE_DISCONNECT ∧
    (c2s.p.getD 1 default).pingcount ≠ PINGS_BEFORE_DISCONNECT ∧
    (c2s.p.getD 1 default).canid ≠ c2f.can_id + 1 ∧
    Effect.ptyWrite 1 [0x41] ∈ (dispatchFrame c2s c2f).2 := by
  decide

/-- C2 (amended): a non-discovery frame is dispatched to the first slot whose
stored `canid` equals `frame.can_id - 1` (uint32 wraparound); only that slot's
entry changes and only it can receive the payload; when no slot matches,
nothing changes and no PTY receives anything. -/
theorem c2_dispatch_to_matching_slot (s : tPorts) (frame : tCanFrame) :
    (∀ i, findCtl s (canSub1 frame.can_id) = some i →
      (s.p.getD i default).canid = canSub1 frame.can_id ∧
      (dispatchFrame s frame).1.p =
        s.p.set i
          { s.p.getD i default with pingcount := PINGS_BEFORE_DISCONNECT } ∧
      ∀ j d, Effect.ptyWrite j d ∈ (dispatchFrame s frame).2 → j = i) ∧
    (findCtl s (canSub1 frame.can_id) = none →
      (dispatchFrame s frame).1 = s ∧
      ∀ j d, Effect.ptyWrite j d ∉ (dispatchFrame s frame).2) := by
  constructor
  · intro i h
    have hd1 : (dispatchFrame s frame).1.p =
        s.p.set i
          { s.p.getD i default with pingcount := PINGS_BEFORE_DISCONNECT } := by
      unfold dispatchFrame
      rw [h]
    have hd2 : (dispatchFrame s frame).2 =
        if 0 < frame.can_dlc ∧ (s.p.getD i default).active then
          [Effect.ptyWrite i (frame.data.take frame.can_dlc)]
        else [] := by
      unfold dispatchFrame
      rw [h]
    refine ⟨(findCtl_spec s _ i h).2.2, hd1, ?_⟩
    intro j d hm
    rw [hd2] at hm
    split at hm
    · simp at hm
      exact hm.1
    · simp at hm
  · intro h
    have hd1 : (dispatchFrame s frame).1 = s := by
      unfold dispatchFrame
      rw [h]
    have hd2 : (dispatchFrame s frame).2 =
        sendEffects PKT_ID_UUID 2 (some (le16 (canSub1 frame.can_id % U16))) := by
      unfold dispatchFrame
      rw [h]
    refine ⟨hd1, ?_⟩
    intro j d hm
    rw [hd2] at hm
    rcases mem_sendEffects _ _ _ hm with ⟨a, b, c, hab⟩
    simp at hab

/-- Witness for C2 (amended), at the concrete matching state of the
counterexample: the matched slot's `canid` is `frame.can_id - 1` and the
update touches exactly that slot. -/
theorem c2_dispatch_to_matching_slot_witness :
    (c2s.p.getD 1 default).canid = canSub1 c2f.can_id ∧
    (dispatchFrame c2s c2f).1.p =
      c2s.p.set 1
        { c2s.p.getD 1 default with pingcount := PINGS_BEFORE_DISCONNECT } ∧
    ∀ j d, Effect.ptyWrite j d ∈ (dispatchFrame c2s c2f).2 → j = 1 :=
  (c2_dispatch_to_matching_slot c2s c2f).1 1 (by decide)

lemma runOps_cons (g : GState) (op : Op) (ops : List Op) :
    runOps g (op :: ops) = runOps (applyOp g op) ops := rfl

lemma reachable_runOps :
    ∀ (ops : List Op) (g : GState), Reachable g → Reachable (runOps g ops) := by
  intro ops
  induction ops with
  | nil => intro g h; exact h
  | cons op rest ih =>
    intro g h
    rw [runOps_cons]
    apply ih
    cases op with
    | rx pn env inp => exact Reachable.rx pn env inp h
    | ping => exact Reachable.ping h

/-- C1: the reap branch of `CanPing` does not delete the cursor slot cleanly.
At a table with real slots `[entA, entB, entC]` (cursor on `entA`, whose
credit is 0), the stale-index copy loop leaves `[entB, entB]`: `entB` is
duplicated and `entC` is lost, so the result differs from the claimed
erase-at-cursor (`[entB, entC]`).  The cursor does stay put and `portptr`
does drop by one, as claimed. -/
theorem c1_reap_corrupts_table :
    (CanPing c1g).1.ports.p = [default, entB, entB] ∧
    (CanPing c1g).1.pingptr = 1 ∧
    portptr (CanPing c1g).1.ports = 3 ∧
    (CanPing c1g).1.ports.p ≠ c1g.ports.p.eraseIdx 1 := by
  decide

/-- C7 counterexample: a state in which two distinct slots carry the same
`port` number is reachable from the post-init state: discover ports 1, 2, 3,
starve port 1, and let `CanPing` reap it — the stale-index shift duplicates
port 2's entry.  This refutes the claim's consequence that every reachable
table has at most one entry per port number. -/
theorem c7_duplicate_port_reachable :
    Reachable (runOps initState c7Ops) ∧
    ¬ portNumsDistinct (runOps initState c7Ops).ports :=
  ⟨reachable_runOps c7Ops initState Reachable.init, by decide⟩

lemma pairwise_port_append (l : List tPortId) (entry : tPortId)
    (hl : l.Pairwise fun a b => a.port ≠ b.port)
    (hmem : ∀ x ∈ l, x.port ≠ entry.port) :
    (l ++ [entry]).Pairwise fun a b => a.port ≠ b.port := by
  rw [List.pairwise_append]
  refine ⟨hl, by simp, ?_⟩
  intro a ha b hb
  simp at hb
  subst hb
  exact hmem a ha

lemma canVport_p_cases (env : VportEnv) (s : tPorts) (portid : Nat)
    (uuid : List Nat) :
    (CanVport env s portid uuid).2.1.p = s.p ∨
    (findPort s portid = none ∧
      (CanVport env s portid uuid).2.1.p =
        s.p ++ [vportEntry env portid uuid]) := by
  unfold CanVport
  rcases hf : findPort s portid with _ | i
  · dsimp only
    split
    · left; split <;> rfl
    · split
      · left; split <;> rfl
      · split
        · left; split <;> rfl
        · split
          · left; split <;> rfl
          · right
            refine ⟨rfl, ?_⟩
            split <;> rfl
  · left
    rfl

/-- C7 (amended): `CanVport` is idempotent on an existing `port_number` — it
returns the first matching slot's index and leaves the table untouched — and
`CanVport` itself never introduces a duplicate `port_number` (for the
representable port numbers below 2^16).  The claim's further consequence,
that every reachable state has at most one entry per port number, is false
(see the reachable duplicate): the reaper's stale shift duplicates entries. -/
theorem c7_vport_idempotent (env : VportEnv) (s : tPorts) (portid : Nat)
    (uuid : List Nat) :
    (∀ i, findPort s portid = some i →
      CanVport env s portid uuid = (Int.ofNat i, s, [])) ∧
    (portid < U16 → portNumsDistinct s →
      portNumsDistinct (CanVport env s portid uuid).2.1) := by
  constructor
  · intro i h
    unfold CanVport
    rw [h]
  · intro hlt hd
    rcases canVport_p_cases env s portid uuid with hp | ⟨hf, hp⟩
    · unfold portNumsDistinct realPorts
      rw [hp]
      exact hd
    · unfold portNumsDistinct realPorts
      rw [hp]
      have hmem : ∀ x ∈ s.p.tail, x.port ≠ portid := by
        intro x hx
        exact findPortAux_none _ _ _ hf x hx
      have hport : (vportEntry env portid uuid).port = portid := by
        unfold vportEntry
        exact Nat.mod_eq_of_lt hlt
      rcases hsp : s.p with _ | ⟨hd0, tl⟩
      · simp
      · rw [List.cons_append, List.tail_cons]
        apply pairwise_port_append
        · have hd2 := hd
          unfold portNumsDistinct realPorts at hd2
          rw [hsp] at hd2
          simpa using hd2
        · intro x hx
          rw [hport]
          have hx2 : x ∈ s.p.tail := by
            rw [hsp]
            simpa using hx
          exact hmem x hx2

/-- Witness for C7: at the concrete one-slot table, re-discovery of port 1
returns slot 1 unchanged, and adding a fresh port number preserves
distinctness. -/
theorem c7_vport_idempotent_witness :
    CanVport (envK 1) c2s 1 [9, 9, 9, 9, 9, 9] = (Int.ofNat 1, c2s, []) ∧
    portNumsDistinct (CanVport (envK 4) c2s 4 [4, 0, 0, 0, 0, 0]).2.1 :=
  ⟨(c7_vport_idempotent (envK 1) c2s 1 [9, 9, 9, 9, 9, 9]).1 1 (by decide),
   (c7_vport_idempotent (envK 4) c2s 4 [4, 0, 0, 0, 0, 0]).2 (by decide)
     (by decide)⟩

/-- C8: on a slot with nonzero credit, `CanPing` decrements the credit,
advances the cursor, and emits a targeted empty-payload frame on the slot's
`canid` exactly when the decremented credit is below 2 — equivalently, a ping
is sent iff the credit before the call was below 3, i.e. only in the final
two decrementing invocations before the reap. -/
theorem c8_ping_decrement_and_late_ping (g : GState) (cur : tPortId)
    (hcur : g.ports.p.getD g.pingptr default = cur)
    (h1 : 1 ≤ g.pingptr) (h2 : g.pingptr < portptr g.ports)
    (h3 : cur.pingcount ≠ 0) :
    (CanPing g).1 =
      { g with
        ports := { g.ports with
          p := g.ports.p.set g.pingptr
            { cur with pingcount := cur.pingcount - 1 } }
        pingptr := g.pingptr + 1 } ∧
    (CanPing g).2 =
      (if cur.pingcount - 1 < 2 then [Effect.sockWrite (cur.canid % U32) 0 []]
       else []) ∧
    ((CanPing g).2 ≠ [] ↔ cur.pingcount < 3) := by
  have e1 : ¬ (g.pingptr = 0) := by omega
  have e2 : ¬ (portptr g.ports ≤ g.pingptr) := by omega
  have hsend : sendEffects cur.canid 0 none =
      [Effect.sockWrite (cur.canid % U32) 0 []] := rfl
  have hfst : (CanPing g).1 =
      { g with
        ports := { g.ports with
          p := g.ports.p.set g.pingptr
            { cur with pingcount := cur.pingcount - 1 } }
        pingptr := g.pingptr + 1 } := by
    unfold CanPing
    rw [if_neg e1, if_neg e2, hcur, if_neg h3]
  have hsnd : (CanPing g).2 =
      (if cur.pingcount - 1 < 2 then [Effect.sockWrite (cur.canid % U32) 0 []]
       else []) := by
    unfold CanPing
    rw [if_neg e1, if_neg e2, hcur, if_neg h3]
    show (if cur.pingcount - 1 < 2 then sendEffects cur.canid 0 none
          else []) = _
    by_cases hc : cur.pingcount - 1 < 2
    · rw [if_pos hc, if_pos hc, hsend]
    · rw [if_neg hc, if_neg hc]
  refine ⟨hfst, hsnd, ?_⟩
  rw [hsnd]
  by_cases hc : cur.pingcount - 1 < 2
  · rw [if_pos hc]
    simp only [ne_eq, List.cons_ne_self]
    constructor
    · intro _; omega
    · intro _; simp
  · rw [if_neg hc]
    constructor
    · intro hx; exact absurd rfl hx
    · intro hx; omega

/-- Witness for C8 at the concrete table: the cursor sits on the slot with
credit 3; one call decrements it to 2, advances the cursor and, since the
decremented credit is not below 2, sends nothing. -/
theorem c8_ping_decrement_and_late_ping_witness :
    (CanPing w8g).1 =
      { w8g with
        ports := { w8g.ports with
          p := w8g.ports.p.set w8g.pingptr
            { entB with pingcount := entB.pingcount - 1 } }
        pingptr := w8g.pingptr + 1 } ∧
    (CanPing w8g).2 =
      (if entB.pingcount - 1 < 2 then
        [Effect.sockWrite (entB.canid % U32) 0 []]
       else []) ∧
    ((CanPing w8g).2 ≠ [] ↔ entB.pingcount < 3) :=
  c8_ping_decrement_and_late_ping w8g entB (by decide) (by decide) (by decide)
    (by decide)

lemma configurePort_fst (pn : List Nat → Nat) (env : VportEnv) (s : tPorts)
    (frame : tCanFrame) : (ConfigurePort pn env s frame).1 = 0 := rfl

lemma canService_no_abort (pn : List Nat → Nat) (env : VportEnv) (s : tPorts)
    (ok : Bool) (frame : tCanFrame) :
    (canService pn env s ok frame).2.2 = false := by
  unfold canService
  split
  · rfl
  · split <;> rfl

lemma rxService_no_abort (pn : List Nat → Nat) (env : VportEnv) (s : tPorts)
    (inp : RxInput) : (rxService pn env s inp).2.2 = false := by
  unfold rxService
  split
  · split
    · exact canService_no_abort pn env s inp.canReadOk inp.frame
    · rfl
  · rfl

lemma rxIteration_eq (pn : List Nat → Nat) (env : VportEnv) (s : tPorts)
    (inp : RxInput) :
    rxIteration pn env s inp =
      ((inotifyService (rxService pn env s inp).1 inp.inotifyEvents).1,
        (rxService pn env s inp).2.1 ++
          (inotifyService (rxService pn env s inp).1 inp.inotifyEvents).2,
        false) := by
  unfold rxIteration
  dsimp only
  rw [rxService_no_abort, if_neg Bool.false_ne_true]

lemma rxIteration_no_abort (pn : List Nat → Nat) (env : VportEnv) (s : tPorts)
    (inp : RxInput) : (rxIteration pn env s inp).2.2 = false := by
  rw [rxIteration_eq]

lemma canVport_effects_no_read {e : Effect} (env : VportEnv) (s : tPorts)
    (portid : Nat) (uuid : List Nat)
    (h : e ∈ (CanVport env s portid uuid).2.2) : isReadEffect e = false := by
  unfold CanVport at h
  cases hf : findPort s portid with
  | some i =>
    rw [hf] at h
    simp at h
  | none =>
    rw [hf] at h
    dsimp only at h
    split at h
    · simp at h
    · split at h
      · simp at h
        subst h
        rfl
      · split at h
        · simp at h
          rcases h with h | h <;> (subst h; rfl)
        · split at h
          · simp at h
            rcases h with h | h <;> (subst h; rfl)
          · simp at h
            rcases h with h | h | h <;> (subst h; rfl)

lemma configurePort_effects_no_read {e : Effect} (pn : List Nat → Nat)
    (env : VportEnv) (s : tPorts) (frame : tCanFrame)
    (h : e ∈ (ConfigurePort pn env s frame).2.2) : isReadEffect e = false := by
  unfold ConfigurePort at h
  dsimp only at h
  rw [List.mem_append] at h
  rcases h with h | h
  · exact canVport_effects_no_read env s _ _ h
  · exact isReadEffect_sendEffects _ _ _ h

lemma dispatchFrame_effects_no_read {e : Effect} (s : tPorts)
    (frame : tCanFrame) (h : e ∈ (dispatchFrame s frame).2) :
    isReadEffect e = false := by
  unfold dispatchFrame at h
  cases hf : findCtl s (canSub1 frame.can_id) with
  | some i =>
    rw [hf] at h
    dsimp only at h
    split at h
    · simp at h
      subst h
      rfl
    · simp at h
  | none =>
    rw [hf] at h
    dsimp only at h
    exact isReadEffect_sendEffects _ _ _ h

lemma canService_effects_shape (pn : List Nat → Nat) (env : VportEnv)
    (s : tPorts) (ok : Bool) (frame : tCanFrame) :
    ∃ rest, (canService pn env s ok frame).2.1 = Effect.readCan :: rest ∧
      ∀ e ∈ rest, isReadEffect e = false := by
  unfold canService
  split
  · refine ⟨[], rfl, ?_⟩
    intro e he
    simp at he
  · split
    · refine ⟨(ConfigurePort pn env s frame).2.2, rfl, ?_⟩
      intro e he
      exact configurePort_effects_no_read pn env s frame he
    · refine ⟨(dispatchFrame s frame).2, rfl, ?_⟩
      intro e he
      exact dispatchFrame_effects_no_read s frame he

lemma ptyServiceSlot_effects_shape (s : tPorts) (i : Nat) (bytes : List Nat) :
    ∃ rest, (ptyServiceSlot s i bytes).2 = Effect.readPty i :: rest ∧
      ∀ e ∈ rest, isReadEffect e = false := by
  unfold ptyServiceSlot
  dsimp only
  split
  · refine ⟨[], rfl, ?_⟩
    intro e he
    simp at he
  · refine ⟨_, rfl, ?_⟩
    intro e he
    exact isReadEffect_sendEffects _ _ _ he

lemma ptyStep_effects (rev : List Bool) (pd : Nat → List Nat)
    (acc : tPorts × List Effect) (i : Nat) :
    ∃ t, (ptyStep rev pd acc i).2 = acc.2 ++ t ∧
      ∀ e ∈ t, isReadEffect e = false ∨ ∃ j, e = Effect.readPty j := by
  unfold ptyStep
  split
  · exact ⟨[], by simp, by simp⟩
  · split
    · rcases ptyServiceSlot_effects_shape acc.1 i (pd i) with ⟨rest, hsh, hr⟩
      refine ⟨(ptyServiceSlot acc.1 i (pd i)).2, rfl, ?_⟩
      intro e he
      rw [hsh] at he
      rcases List.mem_cons.mp he with rfl | he2
      · exact Or.inr ⟨i, rfl⟩
      · exact Or.inl (hr e he2)
    · exact ⟨[], by simp, by simp⟩

lemma ptyFold_effects (rev : List Bool) (pd : Nat → List Nat) :
    ∀ (l : List Nat) (init : tPorts × List Effect),
      (∀ e ∈ init.2, isReadEffect e = false ∨ ∃ j, e = Effect.readPty j) →
      ∀ e ∈ (l.foldl (ptyStep rev pd) init).2,
        isReadEffect e = false ∨ ∃ j, e = Effect.readPty j := by
  intro l
  induction l with
  | nil => intro init hi e he; exact hi e he
  | cons a t ih =>
    intro init hi e he
    rw [List.foldl_cons] at he
    refine ih (ptyStep rev pd init a) ?_ e he
    intro x hx
    rcases ptyStep_effects rev pd init a with ⟨tt, htt, hta⟩
    rw [htt] at hx
    rcases List.mem_append.mp hx with hx1 | hx2
    · exact hi x hx1
    · exact hta x hx2

lemma ptyService_effects (s : tPorts) (rev : List Bool) (pd : Nat → List Nat) :
    ∀ e ∈ (ptyService s rev pd).2,
      isReadEffect e = false ∨ ∃ j, e = Effect.readPty j := by
  refine ptyFold_effects rev pd _ (s, []) ?_
  intro e he
  simp at he

lemma ptyStep_mem_mono (rev : List Bool) (pd : Nat → List Nat)
    (acc : tPorts × List Effect) (i : Nat) {e : Effect} (h : e ∈ acc.2) :
    e ∈ (ptyStep rev pd acc i).2 := by
  unfold ptyStep
  split
  · exact h
  · split
    · dsimp only
      exact List.mem_append_left _ h
    · exact h

lemma ptyFold_mem_mono (rev : List Bool) (pd : Nat → List Nat) :
    ∀ (l : List Nat) (init : tPorts × List Effect) (e : Effect),
      e ∈ init.2 → e ∈ (l.foldl (ptyStep rev pd) init).2 := by
  intro l
  induction l with
  | nil => intro init e h; exact h
  | cons a t ih =>
    intro init e h
    rw [List.foldl_cons]
    exact ih _ e (ptyStep_mem_mono rev pd init a h)

lemma ptyStep_mem_self (rev : List Bool) (pd : Nat → List Nat)
    (acc : tPorts × List Effect) (i : Nat) (hi0 : i ≠ 0)
    (hrev : rev.getD i false = true) :
    Effect.readPty i ∈ (ptyStep rev pd acc i).2 := by
  unfold ptyStep
  rw [if_neg hi0, if_pos hrev]
  dsimp only
  rcases ptyServiceSlot_effects_shape acc.1 i (pd i) with ⟨rest, hsh, _⟩
  rw [hsh]
  exact List.mem_append_right _ (List.mem_cons_self _ _)

lemma ptyFold_mem_readPty (rev : List Bool) (pd : Nat → List Nat) (j : Nat)
    (hj0 : j ≠ 0) (hrev : rev.getD j false = true) :
    ∀ (n : Nat) (init : tPorts × List Effect), j < n →
      Effect.readPty j ∈ ((List.range n).foldl (ptyStep rev pd) init).2 := by
  intro n
  induction n with
  | zero => intro init h; omega
  | succ m ih =>
    intro init h
    rw [List.range_succ, List.foldl_append, List.foldl_cons, List.foldl_nil]
    rcases Nat.lt_or_ge j m with hc | hc
    · exact ptyStep_mem_mono rev pd _ m (ih init hc)
    · have hjm : j = m := by omega
      subst hjm
      exact ptyStep_mem_self rev pd _ j hj0 hrev

lemma ptyService_mem_readPty (s : tPorts) (rev : List Bool)
    (pd : Nat → List Nat) (j : Nat) (hj0 : j ≠ 0) (hj : j < portptr s)
    (hrev : rev.getD j false = true) :
    Effect.readPty j ∈ (ptyService s rev pd).2 :=
  ptyFold_mem_readPty rev pd j hj0 hrev (portptr s) (s, []) hj

lemma inotifyEventService_effects_no_read {e : Effect} (s : tPorts)
    (ev : InotifyEvent) (h : e ∈ (inotifyEventService s ev).2) :
    isReadEffect e = false := by
  unfold inotifyEventService at h
  cases hf : findWatch s ev.wd with
  | none =>
    rw [hf] at h
    simp at h
  | some i =>
    rw [hf] at h
    dsimp only at h
    split at h
    · exact isReadEffect_sendEffects _ _ _ h
    · split at h
      · simp at h
      · simp at h

lemma inotifyFold_effects :
    ∀ (evs : List InotifyEvent) (init : tPorts × List Effect),
      ∃ t, (evs.foldl inotifyStep init).2 = init.2 ++ t ∧
        ∀ e ∈ t, isReadEffect e = false := by
  intro evs
  induction evs with
  | nil =>
    intro init
    exact ⟨[], by simp, by simp⟩
  | cons ev rest ih =>
    intro init
    rw [List.foldl_cons]
    rcases ih (inotifyStep init ev) with ⟨t, ht, hta⟩
    refine ⟨(inotifyEventService init.1 ev).2 ++ t, ?_, ?_⟩
    · rw [ht]
      unfold inotifyStep
      dsimp only
      rw [List.append_assoc]
    · intro e he
      rcases List.mem_append.mp he with h1 | h2
      · exact inotifyEventService_effects_no_read _ _ h1
      · exact hta e h2

lemma inotifyService_effects_shape (s : tPorts) (evs : List InotifyEvent) :
    ∃ t, (inotifyService s evs).2 = Effect.readInotify :: t ∧
      ∀ e ∈ t, isReadEffect e = false := by
  rcases inotifyFold_effects evs (s, [Effect.readInotify]) with ⟨t, ht, hta⟩
  refine ⟨t, ?_, hta⟩
  unfold inotifyService
  rw [ht]
  rfl

lemma dropWhile_append_of_all {p : Effect → Bool} (a b : List Effect)
    (ha : ∀ e ∈ a, p e = true) :
    (a ++ b).dropWhile p = b.dropWhile p := by
  induction a with
  | nil => rfl
  | cons x xs ih =>
    rw [List.cons_append, List.dropWhile_cons, ha x (by simp)]
    exact ih fun e he => ha e (by simp [he])

lemma not_beq_inotify_of_shape {e : Effect}
    (h : isReadEffect e = false ∨ e = Effect.readCan ∨
      ∃ j, e = Effect.readPty j) :
    (!(e == Effect.readInotify)) = true := by
  rcases h with h | rfl | ⟨j, rfl⟩
  · have hne : e ≠ Effect.readInotify := by
      intro he
      subst he
      simp [isReadEffect] at h
    simp [hne]
  · rfl
  · rfl

lemma rxService_effects_chars (pn : List Nat → Nat) (env : VportEnv)
    (s : tPorts) (inp : RxInput) :
    ∀ e ∈ (rxService pn env s inp).2.1,
      isReadEffect e = false ∨ e = Effect.readCan ∨
        ∃ j, e = Effect.readPty j := by
  unfold rxService
  split
  · split
    · intro e he
      rcases canService_effects_shape pn env s inp.canReadOk inp.frame with
        ⟨rest, hsh, hr⟩
      rw [hsh] at he
      rcases List.mem_cons.mp he with rfl | he2
      · exact Or.inr (Or.inl rfl)
      · exact Or.inl (hr e he2)
    · intro e he
      dsimp only at he
      rcases ptyService_effects s inp.revents inp.ptyData e he with h | h
      · exact Or.inl h
      · exact Or.inr (Or.inr h)
  · intro e he
    simp at he

/-- C6 counterexample: an iteration in which both the CAN socket (slot 0) and
the PTY master of slot 1 are readable (with a pending byte) services only the
CAN socket: the PTY master is not read at all, refuting the claim that both
are serviced with the bus frame first.  (The CAN branch and the PTY branch
are the two arms of an if/else.) -/
theorem c6_both_readable_only_can_serviced :
    (c6inp.revents.getD 0 false = true ∧ c6inp.revents.getD 1 false = true ∧
      c6inp.ptyData 1 ≠ [] ∧ 0 < c6inp.pollRet) ∧
    Effect.readCan ∈ (rxIteration pn0 (envK 1) c6s c6inp).2.1 ∧
    Effect.readPty 1 ∉ (rxIteration pn0 (envK 1) c6s c6inp).2.1 := by
  decide

/-- C6 (amended): within one iteration the CAN socket has strict priority and
the filesystem-watch descriptor is drained last: (a) when the CAN socket is
readable, no PTY master is serviced in that iteration; (b) the CAN socket is
read exactly when `poll` returned positive and slot 0's `revents` is set;
(c) after the inotify read, no further read of any source happens in the
iteration; (d) when `poll` returned positive and the CAN socket is not
readable, every readable real PTY slot is serviced. -/
theorem c6_service_order (pn : List Nat → Nat) (env : VportEnv) (s : tPorts)
    (inp : RxInput) :
    (inp.revents.getD 0 false = true →
      ∀ j, Effect.readPty j ∉ (rxIteration pn env s inp).2.1) ∧
    (Effect.readCan ∈ (rxIteration pn env s inp).2.1 ↔
      0 < inp.pollRet ∧ inp.revents.getD 0 false = true) ∧
    (∀ e ∈ (((rxIteration pn env s inp).2.1).dropWhile
        fun x => !(x == Effect.readInotify)).tail, isReadEffect e = false) ∧
    (0 < inp.pollRet → inp.revents.getD 0 false = false →
      ∀ j, j ≠ 0 → j < portptr s → inp.revents.getD j false = true →
        Effect.readPty j ∈ (rxIteration pn env s inp).2.1) := by
  rcases inotifyService_effects_shape (rxService pn env s inp).1
    inp.inotifyEvents with ⟨tIno, hIno, hInoNR⟩
  have heff : (rxIteration pn env s inp).2.1 =
      (rxService pn env s inp).2.1 ++ (Effect.readInotify :: tIno) := by
    rw [rxIteration_eq]
    dsimp only
    rw [hIno]
  refine ⟨?_, ?_, ?_, ?_⟩
  · intro h0 j hm
    rw [heff] at hm
    rcases List.mem_append.mp hm with hm1 | hm2
    · unfold rxService at hm1
      by_cases hp : 0 < inp.pollRet
      · rw [if_pos hp, if_pos h0] at hm1
        rcases canService_effects_shape pn env s inp.canReadOk inp.frame with
          ⟨rest, hsh, hr⟩
        rw [hsh] at hm1
        rcases List.mem_cons.mp hm1 with heq | hm3
        · exact absurd heq (by simp)
        · have hx := hr _ hm3
          simp [isReadEffect] at hx
      · rw [if_neg hp] at hm1
        simp at hm1
    · rcases List.mem_cons.mp hm2 with heq | hm3
      · exact absurd heq (by simp)
      · have hx := hInoNR _ hm3
        simp [isReadEffect] at hx
  · rw [heff]
    constructor
    · intro hm
      rcases List.mem_append.mp hm with hm1 | hm2
      · unfold rxService at hm1
        by_cases hp : 0 < inp.pollRet
        · by_cases h0 : inp.revents.getD 0 false = true
          · exact ⟨hp, h0⟩
          · rw [if_pos hp, if_neg h0] at hm1
            dsimp only at hm1
            rcases ptyService_effects s inp.revents inp.ptyData _ hm1 with
              hh | ⟨j, hj⟩
            · simp [isReadEffect] at hh
            · exact absurd hj (by simp)
        · rw [if_neg hp] at hm1
          simp at hm1
      · rcases List.mem_cons.mp hm2 with heq | hm3
        · exact absurd heq (by simp)
        · have hx := hInoNR _ hm3
          simp [isReadEffect] at hx
    · rintro ⟨hp, h0⟩
      apply List.mem_append_left
      unfold rxService
      rw [if_pos hp, if_pos h0]
      rcases canService_effects_shape pn env s inp.canReadOk inp.frame with
        ⟨rest, hsh, _⟩
      rw [hsh]
      exact List.mem_cons_self _ _
  · intro e he
    have hall : ∀ x ∈ (rxService pn env s inp).2.1,
        (!(x == Effect.readInotify)) = true := by
      intro x hx
      exact not_beq_inotify_of_shape (rxService_effects_chars pn env s inp x hx)
    rw [heff, dropWhile_append_of_all _ _ hall, List.dropWhile_cons] at he
    simp only [beq_self_eq_true, Bool.not_true] at he
    rw [if_neg Bool.false_ne_true] at he
    exact hInoNR e (by simpa using he)
  · intro hp h0 j hj0 hjlt hrev
    rw [heff]
    apply List.mem_append_left
    unfold rxService
    rw [if_pos hp, if_neg (by rw [h0]; exact Bool.false_ne_true)]
    dsimp only
    exact ptyService_mem_readPty s inp.revents inp.ptyData j hj0 hjlt hrev

/-- Witness for C6 (amended): in an iteration where only slot 1's PTY is
readable, that PTY is serviced. -/
theorem c6_service_order_witness :
    Effect.readPty 1 ∈ (rxIteration pn0 (envK 1) c6s c6inpPty).2.1 :=
  (c6_service_order pn0 (envK 1) c6s c6inpPty).2.2.2 (by decide) (by decide) 1
    (by decide) (by decide) (by decide)

/-- C9: `ConfigurePort` returns 0 for every frame, state and syscall
environment — including environments in which `CanVport` fails and returns
-1 — and always transmits the SET frame; consequently the multiplexer loop's
abort branch (the `break` taken when `ConfigurePort` returns a negative
value) is unreachable: the iteration's abort flag is false on every input. -/
theorem c9_configure_port_never_fails (pn : List Nat → Nat) (env : VportEnv)
    (s : tPorts) (frame : tCanFrame) (inp : RxInput) :
    (ConfigurePort pn env s frame).1 = 0 ∧
    (∃ dlc payload, Effect.sockWrite (PKT_ID_SET % U32) dlc payload ∈
      (ConfigurePort pn env s frame).2.2) ∧
    (rxIteration pn env s inp).2.2 = false := by
  refine ⟨configurePort_fst pn env s frame, ?_,
    rxIteration_no_abort pn env s inp⟩
  have hmem : Effect.sockWrite (PKT_ID_SET % U32) (8 % U8)
      ((le16 ((2 * pn frame.data + PKT_ID_CTL_FILTER) % U16) ++
        (List.range CAN_UUID_SIZE).map fun k => frame.data.getD k 0).take
          (8 % U8)) ∈ (ConfigurePort pn env s frame).2.2 := by
    unfold ConfigurePort
    dsimp only
    rw [List.mem_append, sendEffects_eq PKT_ID_SET 8 _ (by decide)]
    right
    exact List.mem_singleton_self _
  exact ⟨8 % U8, _, hmem⟩
